import Mathlib

/-!
Shallow embedding of the `tantivy-remote` caching core
(`src/cache.rs`, `src/writer.rs`, `src/operator.rs`, `src/file.rs`),
with proofs of the behavioural claims about it.

Conventions of the embedding:
* A `PathBuf` is a sequence of bytes (`List Nat`), as on Unix; `Path::to_str`
  succeeds exactly on valid UTF-8 byte sequences.
* The `scc::HashMap` concurrent maps are modelled as association lists
  (`CMap`), with the operations the source performs on them:
  `read` (lookup), `entry` (lookup used for the occupied/vacant split),
  `insert` (fails on an occupied key), `update` (mutate an existing entry,
  no-op when absent) and `remove`.
* `Arc<T>` sharing is modelled by value equality: two callers receiving the
  same stored value model two clones of one shared `Arc`.
* Fallible Rust code returns `Except`.
-/

set_option autoImplicit false

/-- Byte-sequence model of `std::path::PathBuf` (Unix paths are raw bytes). -/
abbrev PathB := List Nat

/-- Kind of an `opendal::Error`, as inspected by the source
(`error.kind() == ErrorKind::NotFound`, `ErrorKind::AlreadyExists`). -/
inductive ErrorKind
  | notFound
  | alreadyExists
  | unexpected
deriving DecidableEq, Repr

/-- Model of an `opendal::Error`: its kind, plus an opaque payload
distinguishing distinct backend failures. -/
structure OpError where
  kind : ErrorKind
  payload : Nat
deriving DecidableEq, Repr

/-- Model of `std::io::Error` as produced in this crate: either the wrapping
`io::Error::other(opendal_error)` or some other raw OS error. -/
inductive IoError
  | wrappedOp (e : OpError)
  | raw (code : Nat)
deriving DecidableEq, Repr

/-- Model of `opendal::Metadata` as consumed by this crate:
`is_file()` and `content_length()`. -/
structure Metadata where
  isFile : Bool
  contentLength : Nat
deriving DecidableEq, Repr

/-- `tantivy::directory::error::OpenReadError` (the variants this crate
constructs). -/
inductive OpenReadError
  | fileDoesNotExist (filepath : PathB)
  | ioError (ioErr : IoError) (filepath : PathB)
deriving DecidableEq, Repr

/-- `tantivy::directory::error::OpenWriteError` (the variants this crate
constructs). -/
inductive OpenWriteError
  | fileAlreadyExists (filepath : PathB)
  | ioError (ioErr : IoError) (filepath : PathB)
deriving DecidableEq, Repr

/-- Is `b` a UTF-8 continuation byte (`0x80 ..= 0xBF`)? -/
def isCont (b : Nat) : Bool := 0x80 ≤ b && b ≤ 0xBF

/-- UTF-8 validity of a byte sequence, following the table used by Rust's
`str::from_utf8` (RFC 3629: no overlong encodings, no surrogates, max
U+10FFFF); this is the success condition of `Path::to_str`. -/
def utf8Valid : List Nat → Bool
  | [] => true
  | b :: rest =>
    if b ≤ 0x7F then
      utf8Valid rest
    else if 0xC2 ≤ b && b ≤ 0xDF then
      match rest with
      | c1 :: rest2 => isCont c1 && utf8Valid rest2
      | [] => false
    else if b = 0xE0 then
      match rest with
      | c1 :: c2 :: rest2 => (0xA0 ≤ c1 && c1 ≤ 0xBF) && isCont c2 && utf8Valid rest2
      | _ => false
    else if (0xE1 ≤ b && b ≤ 0xEC) || (0xEE ≤ b && b ≤ 0xEF) then
      match rest with
      | c1 :: c2 :: rest2 => isCont c1 && isCont c2 && utf8Valid rest2
      | _ => false
    else if b = 0xED then
      match rest with
      | c1 :: c2 :: rest2 => (0x80 ≤ c1 && c1 ≤ 0x9F) && isCont c2 && utf8Valid rest2
      | _ => false
    else if b = 0xF0 then
      match rest with
      | c1 :: c2 :: c3 :: rest2 =>
        (0x90 ≤ c1 && c1 ≤ 0xBF) && isCont c2 && isCont c3 && utf8Valid rest2
      | _ => false
    else if 0xF1 ≤ b && b ≤ 0xF3 then
      match rest with
      | c1 :: c2 :: c3 :: rest2 => isCont c1 && isCont c2 && isCont c3 && utf8Valid rest2
      | _ => false
    else if b = 0xF4 then
      match rest with
      | c1 :: c2 :: c3 :: rest2 =>
        (0x80 ≤ c1 && c1 ≤ 0x8F) && isCont c2 && isCont c3 && utf8Valid rest2
      | _ => false
    else
      false

/-- `Path::to_str`: `some` (the same bytes, now known to be a UTF-8 string)
exactly when the path is valid UTF-8. -/
def PathB.toStr? (p : PathB) : Option (List Nat) :=
  if utf8Valid p then some p else none

/-- Association-list model of `scc::HashMap` (`FastConcurrentMap`). -/
abbrev CMap (V : Type) := List (PathB × V)

/-- Lookup: the `read_sync` / `read_async` operation, and the occupancy test
of `entry_sync` / `insert_async`. -/
def lookupP {V : Type} : CMap V → PathB → Option V
  | [], _ => none
  | (q, v) :: rest, p => if q = p then some v else lookupP rest p

/-- `remove_sync`: drop the binding for the key. -/
def removeP {V : Type} (m : CMap V) (p : PathB) : CMap V :=
  m.filter (fun q => decide (q.1 ≠ p))

/-- `update_sync`: mutate the value of an existing binding; no-op when the
key is absent. -/
def updateP {V : Type} : CMap V → PathB → (V → V) → CMap V
  | [], _, _ => []
  | (q, v) :: rest, p, f =>
    if q = p then (q, f v) :: updateP rest p f else (q, v) :: updateP rest p f

/-!
## `src/cache.rs` — the three caches and the `CreatedEntry` guard

`MetadataCache::fetch` and `Cache::file` run a double-checked population:
a lock-free fast-path read; on a miss, acquisition of the per-key entry
(`entry_sync`), a re-check of occupancy, and only on a vacant entry an
invocation of the caller's closure whose `Ok` result is inserted.

One execution of that code by a single caller is embedded as a function of
two cache states: `c0`, the state the fast-path read observes, and `c1`,
the state observed once the per-key entry has been acquired (other callers
may have populated the key in between; an uninterfered run has `c0 = c1`).
The result triple is (cache state after the call, returned result, whether
the caller-supplied closure was invoked).
-/

/-- `MetadataCache::fetch` (src/cache.rs lines 136–162): double-checked
population of the metadata mapping. `fetch` is the outcome the caller's
closure produces if it is invoked (`AsyncFnOnce` — one outcome per caller). -/
def MetadataCache.fetch (c0 c1 : CMap Metadata) (path : PathB)
    (fetch : Except OpenReadError Metadata) :
    CMap Metadata × Except OpenReadError Metadata × Bool :=
  match lookupP c0 path with
  | some metadata => (c1, .ok metadata, false)
  | none =>
    match lookupP c1 path with
    | some metadata => (c1, .ok metadata, false)
    | none =>
      match fetch with
      | .ok metadata => ((path, metadata) :: c1, .ok metadata, true)
      | .error e => (c1, .error e, true)

/-- `Cache::metadata` (src/cache.rs lines 71–77): delegates to
`MetadataCache::fetch`. -/
def Cache.metadata (c0 c1 : CMap Metadata) (path : PathB)
    (fetch : Except OpenReadError Metadata) :
    CMap Metadata × Except OpenReadError Metadata × Bool :=
  MetadataCache.fetch c0 c1 path fetch

/-- `Cache::file` (src/cache.rs lines 81–104): same double-checked shape
over the file-handle mapping; `H` stands for the shared
`Arc<dyn FileHandle>` objects. -/
def Cache.file {H : Type} (c0 c1 : CMap H) (path : PathB)
    (opn : Except OpenReadError H) :
    CMap H × Except OpenReadError H × Bool :=
  match lookupP c0 path with
  | some file => (c1, .ok file, false)
  | none =>
    match lookupP c1 path with
    | some file => (c1, .ok file, false)
    | none =>
      match opn with
      | .ok file => ((path, file) :: c1, .ok file, true)
      | .error e => (c1, .error e, true)

/-- The `CreatedEntry` guard (src/cache.rs lines 44–52): its path and its
`done` flag. Its `cache: Arc<CreatedCache>` field — the shared
created-files mapping — is passed explicitly to the operations. -/
structure CreatedEntry where
  path : PathB
  done : Bool
deriving DecidableEq, Repr

/-- `Cache::created` (src/cache.rs lines 108–120): `insert_async(path, false)`
fails exactly when the key is occupied, in which case
`FileAlreadyExists` is returned; on success a guard with `done: false` is
returned. -/
def Cache.created (created : CMap Bool) (filepath : PathB) :
    CMap Bool × Except OpenWriteError CreatedEntry :=
  match lookupP created filepath with
  | some _ => (created, .error (.fileAlreadyExists filepath))
  | none => ((filepath, false) :: created, .ok ⟨filepath, false⟩)

/-- `CreatedEntry::done` (src/cache.rs lines 125–130): if the guard's flag is
unset, set it and `update_sync` the mapping's value for the path to `true`;
otherwise do nothing. -/
def CreatedEntry.callDone (entry : CreatedEntry) (cache : CMap Bool) :
    CreatedEntry × CMap Bool :=
  if entry.done then (entry, cache)
  else ({ entry with done := true }, updateP cache entry.path (fun _ => true))

/-- `impl Drop for CreatedEntry` (src/cache.rs lines 165–169):
`remove_sync(&self.path)`, unconditionally. -/
def CreatedEntry.dropGuard (entry : CreatedEntry) (cache : CMap Bool) :
    CMap Bool :=
  removeP cache entry.path

/-!
## `src/operator.rs` — `Operator::metadata`

The backend `stat` is a parameter. The second component of the result
counts how many times `stat` was invoked during the call (the source has a
single call site, reached only after `to_str` succeeds).
-/

/-- `Operator::metadata` (src/operator.rs lines 22–52). -/
def Operator.metadata (stat : List Nat → Except OpError Metadata)
    (filepath : PathB) : Except OpenReadError Metadata × Nat :=
  match PathB.toStr? filepath with
  | none => (.error (.fileDoesNotExist filepath), 0)
  | some path =>
    match stat path with
    | .ok metadata =>
      if metadata.isFile then (.ok metadata, 1)
      else (.error (.fileDoesNotExist filepath), 1)
    | .error error =>
      if error.kind = .notFound then (.error (.fileDoesNotExist filepath), 1)
      else (.error (.ioError (.wrappedOp error) filepath), 1)

/-!
## `src/file.rs` — the `File` handle

The remote object store is a map from (string) paths to byte contents; an
externally modified remote is a different `Store` value. `File` itself is
immutable after construction (all its Rust methods take `&self` and none of
its fields is interiorly mutable).
-/

/-- The remote object store as seen through `opendal`: content bytes per
path. -/
abbrev Store := List Nat → Option (List Nat)

/-- An `opendal::Reader` for one object, as used by `File::read_bytes_async`. -/
structure Reader where
  content : List Nat
deriving DecidableEq, Repr

/-- `operator.reader(path)`: opening a reader on an absent object fails with
a NotFound backend error. -/
def Operator.reader (store : Store) (path : List Nat) : Except OpError Reader :=
  match store path with
  | some content => .ok ⟨content⟩
  | none => .error ⟨.notFound, 0⟩

/-- `reader.read(start..end)`: the requested byte range of the object. -/
def Reader.read (r : Reader) (start stop : Nat) : Except OpError (List Nat) :=
  .ok ((r.content.drop start).take (stop - start))

/-- The `File` handle (src/file.rs lines 20–26): a path and the metadata
snapshot captured at construction (`rt` and `operator` are the execution
substrate and the backend, which the embedding passes explicitly). -/
structure File where
  path : List Nat
  metadata : Metadata
deriving DecidableEq, Repr

/-- `File::open` (src/file.rs lines 29–41): stores the path and the given
metadata snapshot. -/
def File.open (path : List Nat) (metadata : Metadata) : File :=
  ⟨path, metadata⟩

/-- `File::read_bytes_async` (src/file.rs lines 50–69): open a fresh reader
against the store and read exactly the requested range; backend errors are
wrapped with `io::Error::other`. -/
def File.read_bytes_async (f : File) (store : Store) (start stop : Nat) :
    Except IoError (List Nat) :=
  match Operator.reader store f.path with
  | .error e => .error (.wrappedOp e)
  | .ok reader =>
    match reader.read start stop with
    | .error e => .error (.wrappedOp e)
    | .ok buffer => .ok buffer

/-- `File::read_bytes` (src/file.rs lines 46–48): `block_on` of the async
variant. -/
def File.read_bytes (f : File) (store : Store) (start stop : Nat) :
    Except IoError (List Nat) :=
  f.read_bytes_async store start stop

/-- `impl HasLen for File` (src/file.rs lines 72–76):
`metadata.content_length()`. -/
def File.len (f : File) : Nat :=
  f.metadata.contentLength

/-!
## `src/writer.rs` — the `Writer`

The underlying stream (`Compat<FuturesAsyncWriter>`) is modelled by the
sequence of results its successive `poll_shutdown` calls produce; once that
sequence is exhausted, further polls report a completed shutdown.

The two shutdown paths of the source:
* `Writer::poll_shutdown` (non-blocking) polls the inner stream once and,
  on `Ready(Ok(()))`, calls `self.entry.done()`;
* `TerminatingWrite::terminate_ref` (blocking) runs
  `block_on(self.writer.shutdown())` — `tokio::io::AsyncWriteExt::shutdown`
  on the **inner** stream, which polls the inner stream's `poll_shutdown`
  until it is ready. This path never touches `self.entry`.
-/

instance instDecEqExcept {ε α : Type} [DecidableEq ε] [DecidableEq α] :
    DecidableEq (Except ε α)
  | .ok a, .ok b =>
    if h : a = b then .isTrue (by subst h; rfl) else .isFalse (by simp [h])
  | .ok _, .error _ => .isFalse (by simp)
  | .error _, .ok _ => .isFalse (by simp)
  | .error a, .error b =>
    if h : a = b then .isTrue (by subst h; rfl) else .isFalse (by simp [h])

/-- One result of polling the inner stream's shutdown. -/
inductive PollR
  | pending
  | ready (r : Except IoError Unit)
deriving DecidableEq, Repr

/-- The inner write stream, reduced to its future shutdown-poll results. -/
structure WStream where
  shutdownPolls : List PollR
deriving DecidableEq, Repr

/-- One `poll_shutdown` on the inner stream. -/
def WStream.pollShutdown : WStream → PollR × WStream
  | ⟨[]⟩ => (.ready (.ok ()), ⟨[]⟩)
  | ⟨p :: rest⟩ => (p, ⟨rest⟩)

/-- Poll results consumed until the first `Ready` one. -/
def shutdownLoop : List PollR → Except IoError Unit × List PollR
  | [] => (.ok (), [])
  | .pending :: rest => shutdownLoop rest
  | .ready r :: rest => (r, rest)

/-- `AsyncWriteExt::shutdown` driven to completion by `block_on`: poll the
inner stream's shutdown until it reports `Ready`. -/
def WStream.shutdownBlocking (s : WStream) : Except IoError Unit × WStream :=
  ((shutdownLoop s.shutdownPolls).1, ⟨(shutdownLoop s.shutdownPolls).2⟩)

/-- The `Writer` (src/writer.rs lines 18–25; `Writer'` because `Writer` is taken by Mathlib): the inner stream and the owned
`CreatedEntry` guard (`rt` is the execution substrate, passed implicitly by
the embedding's explicit state passing). -/
structure Writer' where
  writer : WStream
  entry : CreatedEntry
deriving DecidableEq, Repr

/-- `Writer::poll_shutdown` (src/writer.rs lines 57–66): poll the inner
stream once; `?` propagates a ready error; on `Ready(Ok(()))` call
`entry.done()` against the shared created-files mapping, then report
readiness. -/
def Writer'.poll_shutdown (w : Writer') (cache : CMap Bool) :
    PollR × Writer' × CMap Bool :=
  match WStream.pollShutdown w.writer with
  | (.pending, s) => (.pending, { w with writer := s }, cache)
  | (.ready (.error e), s) => (.ready (.error e), { w with writer := s }, cache)
  | (.ready (.ok ()), s) =>
    let r := w.entry.callDone cache
    (.ready (.ok ()), ⟨s, r.1⟩, r.2)

/-- `TerminatingWrite::terminate_ref` (src/writer.rs lines 70–73):
`block_on(self.writer.shutdown())` on the inner stream; the guard and the
created-files mapping are not touched. -/
def Writer'.terminate_ref (w : Writer') (cache : CMap Bool) :
    Except IoError Unit × Writer' × CMap Bool :=
  let r := WStream.shutdownBlocking w.writer
  (r.1, { w with writer := r.2 }, cache)

/-!
## Concurrent semantics of the double-checked population

A small-step system for one key of one of the populate-once mappings
(`files` or `metadata`; the keys of the map are independent — a per-key
entry lock never blocks a different key). Each caller `i`:

* `start` — about to perform the fast-path read;
* `slow`  — fast path missed, waiting to acquire the key's entry;
* `locked` — holds the key's entry;
* `finished r` — returned `r`.

`fs i` is the outcome caller `i`'s closure produces if invoked (the closure
is an `AsyncFnOnce`, consumed by at most one invocation). `runs` records
the callers whose closure has been invoked, most recent first. The
closure invocation, the insertion of an `Ok` result and the release of the
entry are one step: the source performs them while holding the per-key
entry, so no other caller can observe an intermediate state of the entry.
-/

/-- Program counter of one caller of `MetadataCache::fetch` / `Cache::file`. -/
inductive FetchPC (V E : Type)
  | start
  | slow
  | locked
  | finished (r : Except E V)

/-- Global state of the per-key population system. -/
structure FetchState (V E : Type) where
  table : Option V
  owner : Option Nat
  pcs : Nat → FetchPC V E
  runs : List Nat

/-- Pointwise update of a caller's program counter. -/
def updFn {A : Type} (f : Nat → A) (i : Nat) (a : A) : Nat → A :=
  fun j => if j = i then a else f j

/-- Initial state: key unpopulated, entry free, every caller at `start`,
no closure invoked. -/
def FetchState.init (V E : Type) : FetchState V E :=
  ⟨none, none, fun _ => .start, []⟩

/-- One step of the per-key population system. -/
inductive FetchStep {V E : Type} (fs : Nat → Except E V) :
    FetchState V E → FetchState V E → Prop
  | fastHit (s : FetchState V E) (i : Nat) (v : V) :
      s.pcs i = .start → s.table = some v →
      FetchStep fs s { s with pcs := updFn s.pcs i (.finished (.ok v)) }
  | fastMiss (s : FetchState V E) (i : Nat) :
      s.pcs i = .start → s.table = none →
      FetchStep fs s { s with pcs := updFn s.pcs i .slow }
  | acquire (s : FetchState V E) (i : Nat) :
      s.pcs i = .slow → s.owner = none →
      FetchStep fs s { s with owner := some i, pcs := updFn s.pcs i .locked }
  | occupied (s : FetchState V E) (i : Nat) (v : V) :
      s.pcs i = .locked → s.owner = some i → s.table = some v →
      FetchStep fs s
        { s with owner := none, pcs := updFn s.pcs i (.finished (.ok v)) }
  | vacantOk (s : FetchState V E) (i : Nat) (v : V) :
      s.pcs i = .locked → s.owner = some i → s.table = none → fs i = .ok v →
      FetchStep fs s
        ⟨some v, none, updFn s.pcs i (.finished (.ok v)), i :: s.runs⟩
  | vacantErr (s : FetchState V E) (i : Nat) (e : E) :
      s.pcs i = .locked → s.owner = some i → s.table = none → fs i = .error e →
      FetchStep fs s
        { s with owner := none, pcs := updFn s.pcs i (.finished (.error e)),
                 runs := i :: s.runs }

/-- Reachability by a finite interleaving of steps. -/
inductive FetchReach {V E : Type} (fs : Nat → Except E V) :
    FetchState V E → FetchState V E → Prop
  | refl (s : FetchState V E) : FetchReach fs s s
  | tail {s t u : FetchState V E} :
      FetchReach fs s t → FetchStep fs t u → FetchReach fs s u

/-- Is an `Except` an `ok`? (`Result::is_ok`.) -/
def isOkE {E V : Type} : Except E V → Bool
  | .ok _ => true
  | .error _ => false

/-- Number of closure invocations in `l` whose outcome is a successful
population. -/
def succRuns {V E : Type} (fs : Nat → Except E V) (l : List Nat) : Nat :=
  l.countP (fun i => isOkE (fs i))

/-- Inductive invariant of the per-key population system: every caller that
returned `Ok v` saw the table populated with `v`; at most one successful
closure invocation has happened; and if one has, the table is populated. -/
def FetchInv {V E : Type} (fs : Nat → Except E V) (s : FetchState V E) : Prop :=
  (∀ i v, s.pcs i = .finished (.ok v) → s.table = some v) ∧
  succRuns fs s.runs ≤ 1 ∧
  (1 ≤ succRuns fs s.runs → s.table.isSome)


/-!
Concrete fixtures, used to instantiate the theorems below on explicit
inputs.
-/

/-- A concrete metadata snapshot. -/
def mA : Metadata := ⟨true, 7⟩

/-- Closure outcomes where every caller's populate closure succeeds with
`mA`. -/
def cFsA : Nat → Except OpenReadError Metadata := fun _ => .ok mA

/-- A state in which caller `0` holds the per-key entry of a
still-unpopulated key. -/
def sLocked : FetchState Metadata OpenReadError :=
  ⟨none, some 0, fun _ => .locked, []⟩

/-- The state reached from `FetchState.init` by caller `0` fast-missing,
acquiring the entry and populating the key with `mA`. -/
def sPopulated : FetchState Metadata OpenReadError :=
  ⟨some mA, none,
    updFn (updFn (updFn (fun _ => .start) 0 .slow) 0 .locked) 0
      (.finished (.ok mA)), [0]⟩

theorem lookupP_removeP {V : Type} (m : CMap V) (p : PathB) :
    lookupP (removeP m p) p = none := by
  induction m with
  | nil => rfl
  | cons q rest ih =>
    by_cases h : q.1 = p
    · simpa [removeP, h] using ih
    · simpa [removeP, lookupP, h] using ih

theorem lookupP_updateP {V : Type} (m : CMap V) (p : PathB) (f : V → V) (v : V)
    (h : lookupP m p = some v) : lookupP (updateP m p f) p = some (f v) := by
  induction m with
  | nil => simp [lookupP] at h
  | cons q rest ih =>
    obtain ⟨a, b⟩ := q
    by_cases hq : a = p
    · subst hq
      simp [lookupP] at h
      simp [updateP, lookupP, h]
    · simp [lookupP, hq] at h
      simp only [updateP, if_neg hq]
      simpa [lookupP, hq] using ih h

theorem fetchInv_init (V E : Type) (fs : Nat → Except E V) :
    FetchInv fs (FetchState.init V E) := by
  refine ⟨?_, ?_, ?_⟩
  · intro i v h
    exact FetchPC.noConfusion h
  · simp [succRuns, FetchState.init]
  · intro h
    simp [succRuns, FetchState.init] at h

theorem fetchStep_table_mono {V E : Type} {fs : Nat → Except E V}
    {s s' : FetchState V E} (h : FetchStep fs s s') (v : V)
    (hv : s.table = some v) : s'.table = some v := by
  cases h <;> simp_all

theorem fetchReach_table_mono {V E : Type} {fs : Nat → Except E V}
    {s s' : FetchState V E} (h : FetchReach fs s s') (v : V)
    (hv : s.table = some v) : s'.table = some v := by
  induction h with
  | refl => exact hv
  | tail _ hst ih => exact fetchStep_table_mono hst v ih

theorem fetchStep_newRun {V E : Type} {fs : Nat → Except E V}
    {s s' : FetchState V E} (h : FetchStep fs s s') (hruns : s'.runs ≠ s.runs) :
    s.table = none ∧ ∃ i, s.owner = some i ∧ s.pcs i = .locked := by
  cases h with
  | fastHit i v h1 h2 => exact absurd rfl hruns
  | fastMiss i h1 h2 => exact absurd rfl hruns
  | acquire i h1 h2 => exact absurd rfl hruns
  | occupied i v h1 h2 h3 => exact absurd rfl hruns
  | vacantOk i v h1 h2 h3 h4 => exact ⟨h3, i, h2, h1⟩
  | vacantErr i e h1 h2 h3 h4 => exact ⟨h3, i, h2, h1⟩

theorem fetchInv_step {V E : Type} {fs : Nat → Except E V}
    {s s' : FetchState V E} (h : FetchStep fs s s') (inv : FetchInv fs s) :
    FetchInv fs s' := by
  obtain ⟨fin, le1, tab⟩ := inv
  cases h with
  | fastHit i v h1 h2 =>
    refine ⟨?_, le1, tab⟩
    intro j w hj
    by_cases hji : j = i
    · subst hji
      have hvw : v = w := by simpa [updFn] using hj
      subst hvw
      exact h2
    · exact fin j w (by simpa [updFn, hji] using hj)
  | fastMiss i h1 h2 =>
    refine ⟨?_, le1, tab⟩
    intro j w hj
    by_cases hji : j = i
    · subst hji
      simp only [updFn, if_pos rfl] at hj
      exact FetchPC.noConfusion hj
    · exact fin j w (by simpa [updFn, hji] using hj)
  | acquire i h1 h2 =>
    refine ⟨?_, le1, tab⟩
    intro j w hj
    by_cases hji : j = i
    · subst hji
      simp only [updFn, if_pos rfl] at hj
      exact FetchPC.noConfusion hj
    · exact fin j w (by simpa [updFn, hji] using hj)
  | occupied i v h1 h2 h3 =>
    refine ⟨?_, le1, tab⟩
    intro j w hj
    by_cases hji : j = i
    · subst hji
      have hvw : v = w := by simpa [updFn] using hj
      subst hvw
      exact h3
    · exact fin j w (by simpa [updFn, hji] using hj)
  | vacantOk i v h1 h2 h3 h4 =>
    have hz : succRuns fs s.runs = 0 := by
      by_contra hnz
      have hone : 1 ≤ succRuns fs s.runs := Nat.one_le_iff_ne_zero.mpr hnz
      have htab := tab hone
      rw [h3] at htab
      simp at htab
    refine ⟨?_, ?_, ?_⟩
    · intro j w hj
      by_cases hji : j = i
      · subst hji
        have hvw : v = w := by simpa [updFn] using hj
        subst hvw
        rfl
      · exfalso
        have htab := fin j w (by simpa [updFn, hji] using hj)
        rw [h3] at htab
        exact Option.noConfusion htab
    · show succRuns fs (i :: s.runs) ≤ 1
      have hcons : succRuns fs (i :: s.runs) = succRuns fs s.runs + 1 := by
        simp [succRuns, List.countP_cons, isOkE, h4]
      omega
    · intro _
      rfl
  | vacantErr i e h1 h2 h3 h4 =>
    have hs : succRuns fs (i :: s.runs) = succRuns fs s.runs := by
      simp [succRuns, List.countP_cons, isOkE, h4]
    refine ⟨?_, ?_, ?_⟩
    · intro j w hj
      by_cases hji : j = i
      · subst hji
        simp [updFn] at hj
      · exact fin j w (by simpa [updFn, hji] using hj)
    · show succRuns fs (i :: s.runs) ≤ 1
      rw [hs]
      exact le1
    · show 1 ≤ succRuns fs (i :: s.runs) → _
      rw [hs]
      exact tab

theorem fetchInv_reach {V E : Type} {fs : Nat → Except E V}
    {s : FetchState V E} (h : FetchReach fs (FetchState.init V E) s) :
    FetchInv fs s := by
  induction h with
  | refl => exact fetchInv_init V E fs
  | tail _ hst ih => exact fetchInv_step hst ih

/-- **C1**: For every path `p`, `Cache::metadata(p, populate)` and
`Cache::file(p, open)` invoke their caller-supplied closure at most once per
successful population: the closure runs only when, after acquiring the
mapping's per-key entry, the key is still absent (conjuncts 3, 6 and 8); if
the key is already populated — on the fast-path read (conjuncts 1, 4) or
found occupied after acquiring the entry (conjuncts 2, 5) — the previously
stored shared value is returned and the closure is not invoked; and in any
concurrent interleaving at most one closure invocation successfully
populates the key, with every caller that returns `Ok` converging on the
one stored result object (conjunct 7). -/
theorem cache_fetch_populate_once :
    (∀ (c0 c1 : CMap Metadata) (p : PathB) (r : Except OpenReadError Metadata)
        (v : Metadata), lookupP c0 p = some v →
        MetadataCache.fetch c0 c1 p r = (c1, .ok v, false)) ∧
    (∀ (c0 c1 : CMap Metadata) (p : PathB) (r : Except OpenReadError Metadata)
        (v : Metadata), lookupP c0 p = none → lookupP c1 p = some v →
        MetadataCache.fetch c0 c1 p r = (c1, .ok v, false)) ∧
    (∀ (c0 c1 : CMap Metadata) (p : PathB) (r : Except OpenReadError Metadata),
        (MetadataCache.fetch c0 c1 p r).2.2 = true →
        lookupP c0 p = none ∧ lookupP c1 p = none) ∧
    (∀ (H : Type) (c0 c1 : CMap H) (p : PathB) (r : Except OpenReadError H)
        (v : H), lookupP c0 p = some v →
        Cache.file c0 c1 p r = (c1, .ok v, false)) ∧
    (∀ (H : Type) (c0 c1 : CMap H) (p : PathB) (r : Except OpenReadError H)
        (v : H), lookupP c0 p = none → lookupP c1 p = some v →
        Cache.file c0 c1 p r = (c1, .ok v, false)) ∧
    (∀ (H : Type) (c0 c1 : CMap H) (p : PathB) (r : Except OpenReadError H),
        (Cache.file c0 c1 p r).2.2 = true →
        lookupP c0 p = none ∧ lookupP c1 p = none) ∧
    (∀ (V E : Type) (fs : Nat → Except E V) (s : FetchState V E),
        FetchReach fs (FetchState.init V E) s →
        succRuns fs s.runs ≤ 1 ∧
        ∀ i j v w, s.pcs i = .finished (.ok v) → s.pcs j = .finished (.ok w) →
          v = w) ∧
    (∀ (V E : Type) (fs : Nat → Except E V) (s s' : FetchState V E),
        FetchStep fs s s' → s'.runs ≠ s.runs →
        s.table = none ∧ ∃ i, s.owner = some i ∧ s.pcs i = .locked) := by
  refine ⟨?_, ?_, ?_, ?_, ?_, ?_, ?_, ?_⟩
  · intro c0 c1 p r v h
    simp [MetadataCache.fetch, h]
  · intro c0 c1 p r v h0 h1
    simp [MetadataCache.fetch, h0, h1]
  · intro c0 c1 p r h
    rcases h0 : lookupP c0 p with _ | v
    · rcases h1 : lookupP c1 p with _ | v
      · exact ⟨rfl, rfl⟩
      · simp [MetadataCache.fetch, h0, h1] at h
    · simp [MetadataCache.fetch, h0] at h
  · intro H c0 c1 p r v h
    simp [Cache.file, h]
  · intro H c0 c1 p r v h0 h1
    simp [Cache.file, h0, h1]
  · intro H c0 c1 p r h
    rcases h0 : lookupP c0 p with _ | v
    · rcases h1 : lookupP c1 p with _ | v
      · exact ⟨rfl, rfl⟩
      · simp [Cache.file, h0, h1] at h
    · simp [Cache.file, h0] at h
  · intro V E fs s hreach
    obtain ⟨fin, le1, _⟩ := fetchInv_reach hreach
    refine ⟨le1, ?_⟩
    intro i j v w hi hj
    have hv := fin i v hi
    have hw := fin j w hj
    exact Option.some.inj (hv.symm.trans hw)
  · intro V E fs s s' hst hruns
    exact fetchStep_newRun hst hruns

/-- Witness for `cache_fetch_populate_once` at concrete inputs: a fast-path
hit, an occupied-after-lock hit, an invoking run, the state reached by the
trace `fastMiss; acquire; vacantOk`, and a populating step out of
`sLocked`. -/
theorem cache_fetch_populate_once_witness :
    MetadataCache.fetch [([1], mA)] [([1], mA)] [1]
        (.error (.fileDoesNotExist [1]))
      = ([([1], mA)], .ok mA, false) ∧
    Cache.file [] [([2], (5 : Nat))] [2] (.error (.fileDoesNotExist [2]))
      = ([([2], 5)], .ok 5, false) ∧
    (lookupP ([] : CMap Metadata) [3] = none ∧
      lookupP ([] : CMap Metadata) [3] = none) ∧
    succRuns cFsA sPopulated.runs ≤ 1 ∧
    (sLocked.table = none ∧
      ∃ i, sLocked.owner = some i ∧ sLocked.pcs i = .locked) := by
  have step1 : FetchStep cFsA (FetchState.init Metadata OpenReadError)
      ⟨none, none, updFn (fun _ => .start) 0 .slow, []⟩ :=
    FetchStep.fastMiss (FetchState.init Metadata OpenReadError) 0 rfl rfl
  have step2 : FetchStep cFsA
      ⟨none, none, updFn (fun _ => .start) 0 .slow, []⟩
      ⟨none, some 0, updFn (updFn (fun _ => .start) 0 .slow) 0 .locked, []⟩ :=
    FetchStep.acquire ⟨none, none, updFn (fun _ => .start) 0 .slow, []⟩ 0 rfl
      rfl
  have step3 : FetchStep cFsA
      ⟨none, some 0, updFn (updFn (fun _ => .start) 0 .slow) 0 .locked, []⟩
      sPopulated :=
    FetchStep.vacantOk
      ⟨none, some 0, updFn (updFn (fun _ => .start) 0 .slow) 0 .locked, []⟩ 0
      mA rfl rfl rfl rfl
  have hreach : FetchReach cFsA (FetchState.init Metadata OpenReadError)
      sPopulated :=
    FetchReach.tail (FetchReach.tail (FetchReach.tail
      (FetchReach.refl (FetchState.init Metadata OpenReadError)) step1) step2)
      step3
  have stepL : FetchStep cFsA sLocked
      ⟨some mA, none, updFn sLocked.pcs 0 (.finished (.ok mA)), [0]⟩ :=
    FetchStep.vacantOk sLocked 0 mA rfl rfl rfl rfl
  refine ⟨?_, ?_, ?_, ?_, ?_⟩
  · exact cache_fetch_populate_once.1 _ _ _ _ mA (by decide)
  · exact cache_fetch_populate_once.2.2.2.2.1 Nat _ _ _ _ 5 (by decide)
      (by decide)
  · exact cache_fetch_populate_once.2.2.1 [] [] [3] (.ok mA) (by decide)
  · exact (cache_fetch_populate_once.2.2.2.2.2.2.1 Metadata OpenReadError cFsA
      sPopulated hreach).1
  · exact cache_fetch_populate_once.2.2.2.2.2.2.2 Metadata OpenReadError cFsA
      sLocked _ stepL (by decide)

/-- **C2, counterexample**: a Writer whose inner stream completes shutdown
immediately, driven through the blocking `terminate_ref` path, reports a
successful shutdown — yet `done()` was never called: the guard's flag is
still `false` and the created-files mapping still records the path's
flushed flag as `false` (the claim requires `true` after a successful
shutdown by either path). `terminate_ref` runs
`block_on(self.writer.shutdown())`, which polls the **inner** stream's
`poll_shutdown` directly and never reaches `Writer::poll_shutdown`, the
only place `entry.done()` is invoked. -/
theorem writer_terminate_skips_done_counterexample :
    (Writer'.terminate_ref ⟨⟨[.ready (.ok ())]⟩, ⟨[0], false⟩⟩
        [([0], false)]).1 = .ok () ∧
    (Writer'.terminate_ref ⟨⟨[.ready (.ok ())]⟩, ⟨[0], false⟩⟩
        [([0], false)]).2.1.entry.done = false ∧
    lookupP (Writer'.terminate_ref ⟨⟨[.ready (.ok ())]⟩, ⟨[0], false⟩⟩
        [([0], false)]).2.2 [0] = some false := by
  decide

/-- **C2, amended**: when the underlying stream's shutdown reaches
completion through the non-blocking `poll_shutdown` path, the Writer calls
`done()` on its owned CreatedEntry exactly once — the guard's flag is set
and the created-files mapping records the path's flushed flag as `true`
(conjunct 1), and any repeated completed poll leaves the guard and the
mapping unchanged (conjunct 2). The blocking `terminate` path drives the
underlying stream's shutdown to completion but does **not** call `done()`:
it leaves the guard and the created-files mapping untouched (conjunct 3). -/
theorem writer_shutdown_done_once :
    (∀ (w : Writer') (c : CMap Bool) (s : WStream) (b : Bool),
        WStream.pollShutdown w.writer = (.ready (.ok ()), s) →
        w.entry.done = false →
        lookupP c w.entry.path = some b →
        (w.poll_shutdown c).1 = .ready (.ok ()) ∧
        (w.poll_shutdown c).2.1.entry.done = true ∧
        lookupP (w.poll_shutdown c).2.2 w.entry.path = some true) ∧
    (∀ (w : Writer') (c : CMap Bool) (s : WStream),
        WStream.pollShutdown w.writer = (.ready (.ok ()), s) →
        w.entry.done = true →
        (w.poll_shutdown c).2.1.entry = w.entry ∧
        (w.poll_shutdown c).2.2 = c) ∧
    (∀ (w : Writer') (c : CMap Bool),
        (w.terminate_ref c).2.1.entry = w.entry ∧
        (w.terminate_ref c).2.2 = c) := by
  refine ⟨?_, ?_, ?_⟩
  · intro w c s b hpoll hdone hb
    refine ⟨?_, ?_, ?_⟩
    · simp [Writer'.poll_shutdown, hpoll]
    · simp [Writer'.poll_shutdown, hpoll, CreatedEntry.callDone, hdone]
    · simp only [Writer'.poll_shutdown, hpoll]
      simp only [CreatedEntry.callDone, hdone, Bool.false_eq_true, if_false]
      exact lookupP_updateP c w.entry.path _ b hb
  · intro w c s hpoll hdone
    constructor
    · simp [Writer'.poll_shutdown, hpoll, CreatedEntry.callDone, hdone]
    · simp [Writer'.poll_shutdown, hpoll, CreatedEntry.callDone, hdone]
  · intro w c
    exact ⟨rfl, rfl⟩

/-- Witness for `writer_shutdown_done_once` on a concrete Writer whose
inner shutdown completes at once. -/
theorem writer_shutdown_done_once_witness :
    ((⟨⟨[]⟩, ⟨[0], false⟩⟩ : Writer').poll_shutdown [([0], false)]).1
        = .ready (.ok ()) ∧
    ((⟨⟨[]⟩, ⟨[0], false⟩⟩ : Writer').poll_shutdown
        [([0], false)]).2.1.entry.done = true ∧
    lookupP ((⟨⟨[]⟩, ⟨[0], false⟩⟩ : Writer').poll_shutdown
        [([0], false)]).2.2 [0] = some true ∧
    ((⟨⟨[]⟩, ⟨[0], true⟩⟩ : Writer').poll_shutdown [([0], true)]).2.2
        = [([0], true)] ∧
    ((⟨⟨[.pending, .ready (.ok ())]⟩, ⟨[0], false⟩⟩ : Writer').terminate_ref
        [([0], false)]).2.2 = [([0], false)] := by
  obtain ⟨h1, h2, h3⟩ := writer_shutdown_done_once
  obtain ⟨a, b, c⟩ := h1 ⟨⟨[]⟩, ⟨[0], false⟩⟩ [([0], false)] ⟨[]⟩ false rfl rfl
    (by decide)
  refine ⟨a, b, c, ?_, ?_⟩
  · exact (h2 ⟨⟨[]⟩, ⟨[0], true⟩⟩ [([0], true)] ⟨[]⟩ rfl rfl).2
  · exact (h3 ⟨⟨[.pending, .ready (.ok ())]⟩, ⟨[0], false⟩⟩ [([0], false)]).2

/-- **C3**: if the populate closure passed to `Cache::metadata(p, populate)`
fails, the error is returned to the caller that ran the closure (and the
closure was indeed invoked), the metadata mapping is left without an entry
for `p` — the failure is not stored as a negative result — and every
subsequent `Cache::metadata(p, _)` call that misses runs its own populate
closure again. -/
theorem metadata_fetch_error_not_cached (c0 c1 : CMap Metadata) (p : PathB)
    (e : OpenReadError) (h0 : lookupP c0 p = none)
    (h1 : lookupP c1 p = none) :
    MetadataCache.fetch c0 c1 p (.error e) = (c1, .error e, true) ∧
    lookupP (MetadataCache.fetch c0 c1 p (.error e)).1 p = none ∧
    (∀ r : Except OpenReadError Metadata,
      (Cache.metadata (MetadataCache.fetch c0 c1 p (.error e)).1
        (MetadataCache.fetch c0 c1 p (.error e)).1 p r).2.2 = true) := by
  have hfetch : MetadataCache.fetch c0 c1 p (.error e) = (c1, .error e, true) := by
    simp [MetadataCache.fetch, h0, h1]
  refine ⟨hfetch, ?_, ?_⟩
  · rw [hfetch]
    exact h1
  · intro r
    rw [hfetch]
    rcases r with v | e2 <;> simp [Cache.metadata, MetadataCache.fetch, h1]

/-- Witness for `metadata_fetch_error_not_cached` on an empty cache. -/
theorem metadata_fetch_error_not_cached_witness :
    MetadataCache.fetch [] [] [1] (.error (.fileDoesNotExist [1]))
      = ([], .error (.fileDoesNotExist [1]), true) ∧
    lookupP (MetadataCache.fetch [] [] [1]
      (.error (.fileDoesNotExist [1]))).1 [1] = none ∧
    (∀ r : Except OpenReadError Metadata,
      (Cache.metadata (MetadataCache.fetch [] [] [1]
          (.error (.fileDoesNotExist [1]))).1
        (MetadataCache.fetch [] [] [1]
          (.error (.fileDoesNotExist [1]))).1 [1] r).2.2 = true) :=
  metadata_fetch_error_not_cached [] [] [1] (.fileDoesNotExist [1])
    (by decide) (by decide)

/-- **C4**: `Cache::created(p)` fails with `FileAlreadyExists` exactly when
`p` is already present in the created-files mapping (conjunct 1), leaving
the mapping unchanged (conjunct 2); when `p` is absent it inserts
`p ↦ false` and returns a guard bound to `p` with an unset flag (conjunct
3), so of two `created(p)` calls with no intervening guard destruction the
first succeeds and the second returns `FileAlreadyExists`. -/
theorem cache_created_conflict (c : CMap Bool) (p : PathB) :
    ((Cache.created c p).2 = .error (.fileAlreadyExists p) ↔
      (lookupP c p).isSome) ∧
    ((lookupP c p).isSome →
      Cache.created c p = (c, .error (.fileAlreadyExists p))) ∧
    (lookupP c p = none →
      Cache.created c p = ((p, false) :: c, .ok ⟨p, false⟩) ∧
      lookupP (Cache.created c p).1 p = some false ∧
      (Cache.created (Cache.created c p).1 p).2
        = .error (.fileAlreadyExists p)) := by
  rcases hc : lookupP c p with _ | b
  · refine ⟨?_, ?_, ?_⟩
    · simp [Cache.created, hc]
    · intro hs
      simp at hs
    · intro _
      refine ⟨by simp [Cache.created, hc], ?_, ?_⟩
      · simp [Cache.created, hc, lookupP]
      · simp [Cache.created, hc, lookupP]
  · refine ⟨?_, ?_, ?_⟩
    · simp [Cache.created, hc]
    · intro _
      simp [Cache.created, hc]
    · intro hn
      exact Option.noConfusion hn

/-- Witness for `cache_created_conflict`: an occupied map rejects, an empty
map accepts then rejects. -/
theorem cache_created_conflict_witness :
    Cache.created [([1], false)] [1]
      = ([([1], false)], .error (.fileAlreadyExists [1])) ∧
    Cache.created [] [1] = ([([1], false)], .ok ⟨[1], false⟩) ∧
    (Cache.created (Cache.created [] [1]).1 [1]).2
      = .error (.fileAlreadyExists [1]) := by
  refine ⟨(cache_created_conflict [([1], false)] [1]).2.1 (by decide), ?_, ?_⟩
  · exact ((cache_created_conflict [] [1]).2.2 (by decide)).1
  · exact ((cache_created_conflict [] [1]).2.2 (by decide)).2.2

/-- **C5**: destroying a `CreatedEntry` guard for path `p` removes `p` from
the created-files mapping unconditionally — the drop glue never reads the
`done` flag (conjunct 2) — so after the guard for `p` is destroyed a new
`created(p)` call succeeds (conjunct 3). -/
theorem created_entry_drop_unreserves (c : CMap Bool) (e : CreatedEntry) :
    lookupP (e.dropGuard c) e.path = none ∧
    (∀ d : Bool, CreatedEntry.dropGuard ⟨e.path, d⟩ c = e.dropGuard c) ∧
    Cache.created (e.dropGuard c) e.path
      = ((e.path, false) :: e.dropGuard c, .ok ⟨e.path, false⟩) := by
  have h := lookupP_removeP c e.path
  refine ⟨h, fun d => rfl, ?_⟩
  simp [Cache.created, CreatedEntry.dropGuard, h]

/-- **C6**: calling `done()` on a `CreatedEntry` twice has the same
observable effect as calling it once — the second call is a no-op on both
the guard and the mapping (conjunct 1) — and the first call on a live guard
sets the mapping's flushed flag for the guard's path to `true`
(conjunct 2). -/
theorem created_entry_done_idempotent (c : CMap Bool) (e : CreatedEntry)
    (b : Bool) :
    CreatedEntry.callDone (e.callDone c).1 (e.callDone c).2 = e.callDone c ∧
    (e.done = false → lookupP c e.path = some b →
      (e.callDone c).1 = ⟨e.path, true⟩ ∧
      lookupP (e.callDone c).2 e.path = some true) := by
  constructor
  · by_cases hd : e.done
    · simp [CreatedEntry.callDone, hd]
    · simp [CreatedEntry.callDone, hd]
  · intro hd hb
    constructor
    · simp [CreatedEntry.callDone, hd]
    · simp only [CreatedEntry.callDone, hd, Bool.false_eq_true, if_false]
      exact lookupP_updateP c e.path _ b hb

/-- Witness for `created_entry_done_idempotent` on a freshly created entry. -/
theorem created_entry_done_idempotent_witness :
    CreatedEntry.callDone
        (CreatedEntry.callDone ⟨[1], false⟩ [([1], false)]).1
        (CreatedEntry.callDone ⟨[1], false⟩ [([1], false)]).2
      = CreatedEntry.callDone ⟨[1], false⟩ [([1], false)] ∧
    (CreatedEntry.callDone ⟨[1], false⟩ [([1], false)]).1 = ⟨[1], true⟩ ∧
    lookupP (CreatedEntry.callDone ⟨[1], false⟩ [([1], false)]).2 [1]
      = some true := by
  obtain ⟨h1, h2⟩ := created_entry_done_idempotent [([1], false)] ⟨[1], false⟩
    false
  obtain ⟨h3, h4⟩ := h2 rfl (by decide)
  exact ⟨h1, h3, h4⟩

/-- **C7**: entries of the file-handle mapping and the metadata mapping,
once inserted, are never removed, replaced or mutated: along any
interleaving of fetch executions a populated key keeps its value forever
(conjunct 1 — the only operations the source ever performs on these two
mappings are the ones of the step relation: reads, entry acquisition and
insert-if-vacant), every later `Cache::file(p, _)` call returns the stored
handle unchanged and untouched whatever its `open` closure would produce
(conjunct 2), and every later `Cache::metadata(p, _)` call returns the
stored snapshot likewise (conjunct 3). -/
theorem cache_entries_immutable :
    (∀ (V E : Type) (fs : Nat → Except E V) (s s' : FetchState V E) (v : V),
        FetchReach fs s s' → s.table = some v → s'.table = some v) ∧
    (∀ (H : Type) (c : CMap H) (p : PathB) (r : Except OpenReadError H)
        (v : H), lookupP c p = some v →
        Cache.file c c p r = (c, .ok v, false)) ∧
    (∀ (c : CMap Metadata) (p : PathB) (r : Except OpenReadError Metadata)
        (v : Metadata), lookupP c p = some v →
        Cache.metadata c c p r = (c, .ok v, false)) := by
  refine ⟨?_, ?_, ?_⟩
  · intro V E fs s s' v hr hv
    exact fetchReach_table_mono hr v hv
  · intro H c p r v h
    simp [Cache.file, h]
  · intro c p r v h
    simp [Cache.metadata, MetadataCache.fetch, h]

/-- Witness for `cache_entries_immutable`: the populated fixture state keeps
its entry, and occupied maps answer later calls from the stored values even
when the closure outcome disagrees with them. -/
theorem cache_entries_immutable_witness :
    sPopulated.table = some mA ∧
    Cache.file [([2], (5 : Nat))] [([2], 5)] [2] (.ok 6)
      = ([([2], 5)], .ok 5, false) ∧
    Cache.metadata [([1], mA)] [([1], mA)] [1] (.ok ⟨false, 0⟩)
      = ([([1], mA)], .ok mA, false) := by
  refine ⟨?_, ?_, ?_⟩
  · exact cache_entries_immutable.1 Metadata OpenReadError cFsA sPopulated
      sPopulated mA (FetchReach.refl sPopulated) rfl
  · exact cache_entries_immutable.2.1 Nat _ _ _ 5 (by decide)
  · exact cache_entries_immutable.2.2 _ _ _ mA (by decide)

/-- **C8**: for a representable path, `Operator::metadata(p)` returns the
backend metadata exactly when the backend stat succeeds and reports a
regular file (conjunct 3); a successful stat of a non-file yields
`FileDoesNotExist` rather than the directory-shaped metadata (conjunct 1);
a stat `NotFound` error also maps to `FileDoesNotExist`, and every other
stat error is wrapped into an `IoError` (conjunct 2). -/
theorem operator_metadata_cases (stat : List Nat → Except OpError Metadata)
    (filepath : PathB) (path : List Nat)
    (h : PathB.toStr? filepath = some path) :
    (∀ m : Metadata, stat path = .ok m →
      (Operator.metadata stat filepath).1
        = if m.isFile then .ok m else .error (.fileDoesNotExist filepath)) ∧
    (∀ e : OpError, stat path = .error e →
      (Operator.metadata stat filepath).1
        = if e.kind = .notFound then .error (.fileDoesNotExist filepath)
          else .error (.ioError (.wrappedOp e) filepath)) ∧
    (∀ m : Metadata, (Operator.metadata stat filepath).1 = .ok m ↔
      stat path = .ok m ∧ m.isFile = true) := by
  refine ⟨?_, ?_, ?_⟩
  · intro m hm
    by_cases hf : m.isFile <;> simp [Operator.metadata, h, hm, hf]
  · intro e he
    by_cases hk : e.kind = .notFound <;> simp [Operator.metadata, h, he, hk]
  · intro m
    constructor
    · intro hres
      rcases hs : stat path with e2 | m2
      · by_cases hk : e2.kind = .notFound <;>
          simp [Operator.metadata, h, hs, hk] at hres
      · by_cases hf : m2.isFile
        · simp [Operator.metadata, h, hs, hf] at hres
          exact ⟨by rw [hres], by rw [← hres]; exact hf⟩
        · simp [Operator.metadata, h, hs, hf] at hres
    · intro ⟨hs, hf⟩
      simp [Operator.metadata, h, hs, hf]

/-- Witness for `operator_metadata_cases` on the one-byte path `[97]`
(`"a"`), exercising the file, directory, not-found and transport-error
backends. -/
theorem operator_metadata_cases_witness :
    (Operator.metadata (fun _ => .ok ⟨true, 9⟩) [97]).1 = .ok ⟨true, 9⟩ ∧
    (Operator.metadata (fun _ => .ok ⟨false, 9⟩) [97]).1
      = .error (.fileDoesNotExist [97]) ∧
    (Operator.metadata (fun _ => .error ⟨.notFound, 1⟩) [97]).1
      = .error (.fileDoesNotExist [97]) ∧
    (Operator.metadata (fun _ => .error ⟨.unexpected, 2⟩) [97]).1
      = .error (.ioError (.wrappedOp ⟨.unexpected, 2⟩) [97]) := by
  refine ⟨?_, ?_, ?_, ?_⟩
  · have := (operator_metadata_cases (fun _ => .ok ⟨true, 9⟩) [97] [97]
      (by decide)).1 ⟨true, 9⟩ rfl
    simpa using this
  · have := (operator_metadata_cases (fun _ => .ok ⟨false, 9⟩) [97] [97]
      (by decide)).1 ⟨false, 9⟩ rfl
    simpa using this
  · have := (operator_metadata_cases (fun _ => .error ⟨.notFound, 1⟩) [97]
      [97] (by decide)).2.1 ⟨.notFound, 1⟩ rfl
    simpa using this
  · have := (operator_metadata_cases (fun _ => .error ⟨.unexpected, 2⟩) [97]
      [97] (by decide)).2.1 ⟨.unexpected, 2⟩ rfl
    simpa using this

/-- **C9**: a `File` handle's `len()` always equals the `content_length` of
the metadata snapshot captured when the handle was constructed (conjuncts
1 and 2), the blocking `read_bytes` is exactly `block_on` of
`read_bytes_async` (conjunct 3), and the read path neither consults nor
refreshes the snapshot — its outcome is independent of the stored metadata
(conjunct 4) and `len` takes no notice of the store, so the reported length
is unchanged however the remote object is modified after the handle is
opened. -/
theorem file_len_from_snapshot (path : List Nat) (m m2 : Metadata)
    (store : Store) (start stop : Nat) :
    (File.open path m).len = m.contentLength ∧
    (File.open path m).metadata = m ∧
    File.read_bytes (File.open path m) store start stop
      = File.read_bytes_async (File.open path m) store start stop ∧
    File.read_bytes_async (File.open path m) store start stop
      = File.read_bytes_async (File.open path m2) store start stop :=
  ⟨rfl, rfl, rfl, rfl⟩

/-- **C10**: for every path that is not valid UTF-8, `Operator::metadata`
returns `FileDoesNotExist` for that path without invoking the backend's
`stat` at all: the stat-invocation count is `0` and the result is the same
whatever `stat` is. -/
theorem operator_metadata_invalid_path (filepath : PathB)
    (h : utf8Valid filepath = false) :
    ∀ stat : List Nat → Except OpError Metadata,
      Operator.metadata stat filepath
        = (.error (.fileDoesNotExist filepath), 0) := by
  intro stat
  simp [Operator.metadata, PathB.toStr?, h]

/-- Witness for `operator_metadata_invalid_path` on the lone continuation
byte `0x80`, an invalid UTF-8 path. -/
theorem operator_metadata_invalid_path_witness :
    Operator.metadata (fun _ => .ok ⟨true, 3⟩) [0x80]
      = (.error (.fileDoesNotExist [0x80]), 0) :=
  operator_metadata_invalid_path [0x80] (by decide) (fun _ => .ok ⟨true, 3⟩)
